import Mathlib

/-!
Verification of the pan/zoom view-state engine of the `infinite` canvas
widget (`src/canvas.rs`). The Rust `f32` arithmetic is embedded over the
real numbers `ℝ`, `E.powf` becoming `Real.exp`; claims stated "within
floating-point tolerance" become exact equalities over `ℝ`.
-/

noncomputable section

namespace Infinite

/-- A 2-D vector / point (`iced::Vector` and `iced::Point` both carry two
`f32` components; the source converts freely between them). -/
@[ext]
structure Vec2 where
  x : ℝ
  y : ℝ

instance : Zero Vec2 := ⟨⟨0, 0⟩⟩
instance : Add Vec2 := ⟨fun a b => ⟨a.x + b.x, a.y + b.y⟩⟩
instance : Sub Vec2 := ⟨fun a b => ⟨a.x - b.x, a.y - b.y⟩⟩
instance : Neg Vec2 := ⟨fun a => ⟨-a.x, -a.y⟩⟩

/-- `Vector * scalar` as used by the source (`offset * mult`,
`point * (1. / scale)`). -/
def Vec2.scaleBy (v : Vec2) (r : ℝ) : Vec2 := ⟨v.x * r, v.y * r⟩

/-- `const SCALE_STEP: f32 = 0.1;` -/
def SCALE_STEP : ℝ := 0.1

/-- `const OFFSET_STEP: f32 = 25.0;` -/
def OFFSET_STEP : ℝ := 25.0

/-- The per-widget view state `InfiniteState` (src/canvas.rs). The opaque
Program domain state and the raw keyboard-modifier record are dropped:
no claimed arithmetic reads them (modifiers enter the event dispatch as
explicit booleans). -/
structure InfiniteState where
  offset : Vec2
  scale_level : ℝ
  scale : ℝ
  /-- The virtual position of the cursor (`mouse_position: Option<Point>`). -/
  mouse_position : Option Vec2

namespace InfiniteState

/-- `InfiniteState::new`: zero offset, `scale_level = 0`,
`scale = E.powf(0)`, no mouse position. -/
def new : InfiniteState :=
  { offset := ⟨0, 0⟩
    scale_level := 0
    scale := Real.exp 0
    mouse_position := none }

/-- `InfiniteState::set_mouse_position`. -/
def set_mouse_position (s : InfiniteState) (p : Option Vec2) : InfiniteState :=
  { s with mouse_position := p }

/-- `InfiniteState::add_level(diff, focal_origin)`: adds to the scale
level, recomputes the scale and applies the focal offset correction,
returning the new state and the applied offset delta. -/
def add_level (s : InfiniteState) (diff : ℝ) (focal_origin : Bool) :
    InfiniteState × Vec2 :=
  let scale_level := s.scale_level + diff
  let prev_scale := s.scale
  let scale := Real.exp scale_level
  let delta :=
    if focal_origin then
      let ratio := if diff < 0 then prev_scale / scale else scale / prev_scale
      let d := 1 - ratio
      Vec2.mk (d * s.offset.x) (-d * s.offset.y)
    else
      let d := scale - prev_scale
      let cursor := s.mouse_position.getD ⟨0, 0⟩
      Vec2.mk (d * cursor.x) (-d * cursor.y)
  ({ s with
      scale_level := scale_level
      scale := scale
      offset := s.offset + delta }, delta)

/-- `InfiniteState::set_scale_level`. -/
def set_scale_level (s : InfiniteState) (level : ℝ) : InfiniteState :=
  { s with scale_level := level, scale := Real.exp level }

/-- `InfiniteState::reset_offset`. -/
def reset_offset (s : InfiniteState) (init : Vec2) : InfiniteState :=
  { s with offset := init }

/-- `InfiniteState::reset_scale`: sets the scale level, recomputes the
scale and applies the focal correction at the last mouse position
(world origin when `None`). -/
def reset_scale (s : InfiniteState) (init : ℝ) : InfiniteState :=
  let scale_level := init
  let prev_scale := s.scale
  let scale := Real.exp scale_level
  let delta :=
    let d := scale - prev_scale
    let mouse := s.mouse_position.getD ⟨0, 0⟩
    Vec2.mk (d * mouse.x) (-d * mouse.y)
  { s with
      scale_level := scale_level
      scale := scale
      offset := s.offset + delta }

/-- `InfiniteState::reset_all`: `reset_scale` then `reset_offset`. -/
def reset_all (s : InfiniteState) (offset : Vec2) (scale : ℝ) : InfiniteState :=
  (s.reset_scale scale).reset_offset offset

/-- The inline pan mutation `state.offset = state.offset - offset`
performed by the wheel-scroll and arrow-key translation arms of
`Infinite::on_event`. -/
def pan (s : InfiniteState) (delta : Vec2) : InfiniteState :=
  { s with offset := s.offset - delta }

end InfiniteState

/-- `get_cursors` (src/canvas.rs), the `Cursor::Available` case: the
world-space projection of a screen point, from the viewport center,
offset and scale. -/
def get_cursors (center : Vec2) (offset : Vec2) (scale : ℝ) (point : Vec2) :
    Vec2 :=
  let p := center - point
  let q := (p - offset).scaleBy (1 / scale)
  ⟨-q.x, q.y⟩

/-- The public `event::Status` of the canvas. -/
inductive EventStatus where
  | Captured
  | Ignored
  deriving DecidableEq

/-- `iced::event::Status`. -/
inductive IcedStatus where
  | Captured
  | Ignored
  deriving DecidableEq

/-- `impl From<Status> for iced::event::Status` (src/canvas.rs): both
variants are mapped to `Captured`. -/
def statusToIced : EventStatus → IcedStatus
  | .Captured => IcedStatus.Captured
  | .Ignored => IcedStatus.Captured

/-- `Status::merge`: `Captured` takes precedence. -/
def EventStatus.merge : EventStatus → EventStatus → EventStatus
  | .Captured, _ => .Captured
  | _, .Captured => .Captured
  | _, _ => .Ignored

/-- `ScrollDirection` (src/canvas.rs). -/
inductive ScrollDirection where
  | X
  | Y
  | Both
  | None
  deriving DecidableEq

/-- `iced::mouse::ScrollDelta`. -/
inductive ScrollDelta where
  | Lines (x y : ℝ)
  | Pixels (x y : ℝ)

/-- The two keyboard-modifier flags the wheel dispatch reads. -/
structure Modifiers where
  shift : Bool
  command : Bool

/-- The `WheelScrolled` arm of `Infinite::on_event` (src/canvas.rs):
classifies a wheel delta against the current modifiers and the widget
configuration (`direction`, `offset_step`, `scale_step`, `allow_scale`),
mutates the state and reports whether the event was captured. Program
callbacks and shell publishing are side effects outside the state and are
dropped. -/
def on_wheel (dir : ScrollDirection) (offset_step : Option Vec2)
    (scale_step : Option ℝ) (allow_scale : Bool) (mods : Modifiers)
    (s : InfiniteState) (delta : ScrollDelta) : InfiniteState × IcedStatus :=
  let ss := scale_step.getD SCALE_STEP
  match delta with
  | .Lines x y =>
    if mods.shift && mods.command then
      if !allow_scale then (s, .Ignored)
      else
        let step := if y < 0 then -ss else ss
        ((s.add_level step true).1, .Captured)
    else if mods.shift then
      if !allow_scale then (s, .Ignored)
      else
        let step := if y < 0 then -ss else ss
        ((s.add_level step false).1, .Captured)
    else
      let xy : ℝ × ℝ := match offset_step with
        | some o => (o.x, o.y)
        | none => (x, y)
      let mult : ℝ := 100.0
      match dir with
      | .X => (s.pan ((Vec2.mk xy.1 0).scaleBy mult), .Captured)
      | .Y => (s.pan ((Vec2.mk 0 xy.2).scaleBy mult), .Captured)
      | .Both => (s.pan ((Vec2.mk xy.1 xy.2).scaleBy mult), .Captured)
      | .None => (s, .Ignored)
  | .Pixels x y =>
    if mods.shift && mods.command then
      if !allow_scale then (s, .Ignored)
      else
        let step := if y < 0 then -ss else ss
        ((s.add_level step true).1, .Captured)
    else if mods.shift then
      if !allow_scale then (s, .Ignored)
      else
        let step := if y < 0 then -ss else ss
        ((s.add_level step false).1, .Captured)
    else
      let xy : ℝ × ℝ := match offset_step with
        | some o => (o.x, o.y)
        | none => (x, y)
      match dir with
      | .X => (s.pan (Vec2.mk xy.1 0), .Captured)
      | .Y => (s.pan (Vec2.mk 0 xy.2), .Captured)
      | .Both => (s.pan (Vec2.mk xy.1 xy.2), .Captured)
      | .None => (s, .Ignored)

/-- `Anchor` (src/canvas.rs). -/
inductive Anchor where
  | Both
  | X
  | Y
  | None
  deriving DecidableEq

/-- The action of `transform_path` (src/canvas.rs) on a single point of
the path: the anchor zeroes the pinned offset components, the translation
origin is `center - offset`, and the affine map
`Transform2D::new(scale, 0, 0, -scale, trans_x, trans_y)` sends `(px, py)`
to `(scale * px + trans_x, -scale * py + trans_y)`, with `scale = 1` when
the buffer opted out of scaling. -/
def transform_path_point (s : InfiniteState) (center : Vec2) (p : Vec2)
    (anchor : Anchor) (scaleFlag : Bool) : Vec2 :=
  let offset : Vec2 :=
    match anchor with
    | .None => s.offset
    | .X => ⟨0, s.offset.y⟩
    | .Y => ⟨s.offset.x, 0⟩
    | .Both => ⟨0, 0⟩
  let c := center - offset
  let sc := if scaleFlag then s.scale else 1
  ⟨sc * p.x + c.x, -sc * p.y + c.y⟩

/-- `translate_point` (src/canvas.rs), used by `transform_text`: same
anchor handling, scales the point by `state.scale` and translates with a
y-flip. -/
def translate_point (s : InfiniteState) (center : Vec2) (point : Vec2)
    (anchor : Anchor) : Vec2 :=
  let offset : Vec2 :=
    match anchor with
    | .Both => ⟨0, 0⟩
    | .X => ⟨0, s.offset.y⟩
    | .Y => ⟨s.offset.x, 0⟩
    | .None => s.offset
  let c := center - offset
  let p := Vec2.mk (point.x * s.scale) (point.y * s.scale)
  ⟨c.x + p.x, c.y - p.y⟩

/-- The scale invariant of the data model: the stored `scale` is the
exponential of the stored `scale_level`, hence strictly positive. -/
def ScaleInv (s : InfiniteState) : Prop :=
  s.scale = Real.exp s.scale_level ∧ 0 < s.scale

/-- A no-modifier pixel-wheel pan sequence through the `on_wheel`
dispatch with scroll direction `Both` and no configured `offset_step`. -/
def pan_sequence (s : InfiniteState) (ds : List Vec2) : InfiniteState :=
  ds.foldl
    (fun t d => (on_wheel .Both none none true ⟨false, false⟩ t (.Pixels d.x d.y)).1) s

/-- Componentwise sum of a list of vectors. -/
def vsum (ds : List Vec2) : Vec2 := ⟨(ds.map Vec2.x).sum, (ds.map Vec2.y).sum⟩

/-- A concrete state whose stored pointer position is the world projection
of the screen point `(5, 7)` seen from center `(0, 0)`. -/
def focalState : InfiniteState :=
  { offset := ⟨0, 0⟩
    scale_level := 0
    scale := Real.exp 0
    mouse_position := some (get_cursors ⟨0, 0⟩ ⟨0, 0⟩ (Real.exp 0) ⟨5, 7⟩) }

/-- A concrete state with a nonzero offset, used to exercise the
focal-origin zoom round trip. -/
def roundtripState : InfiniteState :=
  { offset := ⟨1, 1⟩
    scale_level := 0
    scale := Real.exp 0
    mouse_position := none }

/- ------------------------------------------------------------------ -/
/- Component lemmas.                                                   -/
/- ------------------------------------------------------------------ -/

@[simp] theorem Vec2.zero_x : (0 : Vec2).x = 0 := rfl

@[simp] theorem Vec2.zero_y : (0 : Vec2).y = 0 := rfl

@[simp] theorem Vec2.add_x (a b : Vec2) : (a + b).x = a.x + b.x := rfl

@[simp] theorem Vec2.add_y (a b : Vec2) : (a + b).y = a.y + b.y := rfl

@[simp] theorem Vec2.sub_x (a b : Vec2) : (a - b).x = a.x - b.x := rfl

@[simp] theorem Vec2.sub_y (a b : Vec2) : (a - b).y = a.y - b.y := rfl

@[simp] theorem Vec2.neg_x (a : Vec2) : (-a).x = -a.x := rfl

@[simp] theorem Vec2.neg_y (a : Vec2) : (-a).y = -a.y := rfl

@[simp] theorem Vec2.scaleBy_x (a : Vec2) (r : ℝ) : (a.scaleBy r).x = a.x * r := rfl

@[simp] theorem Vec2.scaleBy_y (a : Vec2) (r : ℝ) : (a.scaleBy r).y = a.y * r := rfl

@[simp] theorem Vec2.mk_x (a b : ℝ) : (Vec2.mk a b).x = a := rfl

@[simp] theorem Vec2.mk_y (a b : ℝ) : (Vec2.mk a b).y = b := rfl

theorem Vec2.mk_eta (v : Vec2) : Vec2.mk v.x v.y = v := rfl

/-- The no-modifier pixel-wheel arm with direction `Both` and no
configured step is exactly a pan by the raw delta. -/
theorem on_wheel_pixels_both (cfg : Option ℝ) (als : Bool) (s : InfiniteState)
    (x y : ℝ) :
    on_wheel .Both none cfg als ⟨false, false⟩ s (.Pixels x y) =
      (s.pan ⟨x, y⟩, .Captured) := rfl

/- ------------------------------------------------------------------ -/
/- Claim theorems.                                                     -/
/- ------------------------------------------------------------------ -/

/-- C9: every value of the public `event::Status` converts to
`iced::event::Status::Captured`; in particular an event a Program reports
as `Ignored` still converts to `Captured`. -/
theorem statusToIced_always_captured (st : EventStatus) :
    statusToIced st = IcedStatus.Captured := by
  cases st <;> rfl

/-- C4: after `reset_all(init_offset, init_zoom)` — the Cmd(Ctrl)+Home
reset — the offset equals the Program's init scroll exactly and the scale
level equals the Program's init zoom exactly, regardless of the prior
state (offset, scale, pointer position). -/
theorem reset_all_exact (s : InfiniteState) (v : Vec2) (z : ℝ) :
    (s.reset_all v z).offset = v ∧ (s.reset_all v z).scale_level = z :=
  ⟨rfl, rfl⟩

/-- C7: the Shift+Home reset (`reset_scale`) sets the scale level to the
Program's init zoom and adjusts the offset by
`((scale - prev_scale) * pointer.x, -(scale - prev_scale) * pointer.y)`,
with the world origin standing in for an unavailable pointer. -/
theorem reset_scale_focal_correction (s : InfiniteState) (init : ℝ) :
    (s.reset_scale init).scale_level = init ∧
    (s.reset_scale init).scale = Real.exp init ∧
    (s.reset_scale init).offset =
      s.offset +
        Vec2.mk ((Real.exp init - s.scale) * (s.mouse_position.getD ⟨0, 0⟩).x)
          (-(Real.exp init - s.scale) * (s.mouse_position.getD ⟨0, 0⟩).y) :=
  ⟨rfl, rfl, rfl⟩

/-- C8: a `Lines { x: 0, y: 1 }` wheel event with no shift/command
modifier, scroll direction `Both` and no configured `offset_step` is a
pan with delta `(0, 100)` — the 100x line multiplier applied — so the
offset decreases by `(0, 100)` and the event is captured. -/
theorem lines_pan_multiplier (s : InfiniteState) :
    on_wheel .Both none none true ⟨false, false⟩ s (.Lines 0 1) =
      ({ s with offset := s.offset - ⟨0, 100⟩ }, .Captured) := by
  show (s.pan ((Vec2.mk 0 1).scaleBy 100.0), IcedStatus.Captured) = _
  have : (Vec2.mk 0 1).scaleBy 100.0 = Vec2.mk 0 100 := by
    ext <;> norm_num [Vec2.scaleBy]
  rw [this]
  rfl

/-- C10: a wheel event classified as zoom (shift held, zoom allowed)
changes the scale level by exactly plus or minus the configured scale
step (default `SCALE_STEP = 0.1`): minus when the wheel y-delta is
strictly negative, plus otherwise (including `y = 0`); the delta's
magnitude and x component are ignored. -/
theorem wheel_zoom_step (s : InfiniteState) (x y : ℝ) (cfg : Option ℝ)
    (cmd : Bool) (dir : ScrollDirection) (ostep : Option Vec2) :
    SCALE_STEP = 0.1 ∧
    (on_wheel dir ostep cfg true ⟨true, cmd⟩ s (.Lines x y)).1.scale_level =
      s.scale_level +
        (if y < 0 then -(cfg.getD SCALE_STEP) else cfg.getD SCALE_STEP) ∧
    (on_wheel dir ostep cfg true ⟨true, cmd⟩ s (.Pixels x y)).1.scale_level =
      s.scale_level +
        (if y < 0 then -(cfg.getD SCALE_STEP) else cfg.getD SCALE_STEP) := by
  refine ⟨rfl, ?_, ?_⟩ <;> cases cmd <;>
    simp [on_wheel, InfiniteState.add_level]

/-- C5: under `transform_path`, an `Anchor::Both` item's screen position
is invariant under any pan, while an `Anchor::None` item at the same
world coordinate shifts by exactly the pan delta. -/
theorem anchor_pinning (s : InfiniteState) (center p delta : Vec2)
    (fl : Bool) :
    transform_path_point (s.pan delta) center p .Both fl =
      transform_path_point s center p .Both fl ∧
    transform_path_point (s.pan delta) center p .None fl =
      transform_path_point s center p .None fl + delta := by
  refine ⟨rfl, ?_⟩
  ext <;> simp [transform_path_point, InfiniteState.pan] <;> ring

/-- C3: the construction `InfiniteState::new` establishes
`scale = exp(scale_level)`, every mutating operation (`add_level`,
`set_scale_level`, `reset_scale`, `reset_offset`, `reset_all`, pan)
re-establishes or preserves it, and the scale is strictly positive. -/
theorem scale_invariant (s : InfiniteState) (d lvl : ℝ) (f : Bool)
    (v w : Vec2) (h : ScaleInv s) :
    ScaleInv InfiniteState.new ∧
    ScaleInv (s.add_level d f).1 ∧
    ScaleInv (s.set_scale_level lvl) ∧
    ScaleInv (s.reset_scale lvl) ∧
    ScaleInv (s.reset_offset v) ∧
    ScaleInv (s.reset_all v lvl) ∧
    ScaleInv (s.pan w) :=
  ⟨⟨rfl, Real.exp_pos 0⟩, ⟨rfl, Real.exp_pos _⟩, ⟨rfl, Real.exp_pos _⟩,
    ⟨rfl, Real.exp_pos _⟩, ⟨h.1, h.2⟩, ⟨rfl, Real.exp_pos _⟩, ⟨h.1, h.2⟩⟩

/-- Witness for C3 at a concrete state satisfying the invariant. -/
theorem scale_invariant_witness :
    ScaleInv ((InfiniteState.mk ⟨6, 6⟩ 0 (Real.exp 0) none).pan ⟨1, 2⟩) :=
  (scale_invariant (InfiniteState.mk ⟨6, 6⟩ 0 (Real.exp 0) none) 1 1 true
    ⟨3, 4⟩ ⟨1, 2⟩ ⟨rfl, Real.exp_pos 0⟩).2.2.2.2.2.2

/-- The offset after a no-modifier pixel-wheel pan sequence. -/
theorem pan_sequence_offset (ds : List Vec2) (s : InfiniteState) :
    (pan_sequence s ds).offset = s.offset - vsum ds := by
  induction ds generalizing s with
  | nil => ext <;> simp [pan_sequence, vsum]
  | cons d tl ih =>
    have hstep : pan_sequence s (d :: tl) = pan_sequence (s.pan d) tl := rfl
    rw [hstep, ih (s.pan d)]
    ext <;> simp [InfiniteState.pan, vsum] <;> ring

/-- C6: a no-modifier pixel-wheel pan sequence (direction `Both`, no
configured `offset_step`) yields `initial_offset - (d1 + ... + dn)`,
independently of the grouping and of the order of the deltas. -/
theorem pan_accumulation (s : InfiniteState) (ds : List Vec2) :
    (pan_sequence s ds).offset = s.offset - vsum ds ∧
    (∀ l1 l2 : List Vec2,
      pan_sequence s (l1 ++ l2) = pan_sequence (pan_sequence s l1) l2) ∧
    ∀ ds' : List Vec2, ds.Perm ds' →
      (pan_sequence s ds).offset = (pan_sequence s ds').offset := by
  refine ⟨pan_sequence_offset ds s, ?_, ?_⟩
  · intro l1 l2
    simp [pan_sequence, List.foldl_append]
  · intro ds' hperm
    rw [pan_sequence_offset, pan_sequence_offset]
    have hx : (ds.map Vec2.x).sum = (ds'.map Vec2.x).sum :=
      (hperm.map Vec2.x).sum_eq
    have hy : (ds.map Vec2.y).sum = (ds'.map Vec2.y).sum :=
      (hperm.map Vec2.y).sum_eq
    simp [vsum, hx, hy]

/-- Witness for C6: a two-element pan sequence and its transposition. -/
theorem pan_accumulation_witness :
    (pan_sequence InfiniteState.new [⟨1, 2⟩, ⟨3, 4⟩]).offset =
      InfiniteState.new.offset - vsum [⟨1, 2⟩, ⟨3, 4⟩] ∧
    (pan_sequence InfiniteState.new [⟨1, 2⟩, ⟨3, 4⟩]).offset =
      (pan_sequence InfiniteState.new [⟨3, 4⟩, ⟨1, 2⟩]).offset :=
  ⟨(pan_accumulation InfiniteState.new [⟨1, 2⟩, ⟨3, 4⟩]).1,
    (pan_accumulation InfiniteState.new [⟨1, 2⟩, ⟨3, 4⟩]).2.2 [⟨3, 4⟩, ⟨1, 2⟩]
      (List.Perm.swap (Vec2.mk 3 4) (Vec2.mk 1 2) [])⟩

/-- C1: if the stored pointer position is the world projection of a
screen point `p` (as computed by `get_cursors`), a zoom through
`add_level` with `focal_origin = false` leaves the world projection of
`p` unchanged. -/
theorem zoom_focal_point_invariant (s : InfiniteState) (center p : Vec2)
    (d : ℝ) (hscale : s.scale = Real.exp s.scale_level)
    (hm : s.mouse_position = some (get_cursors center s.offset s.scale p)) :
    get_cursors center (s.add_level d false).1.offset
        (s.add_level d false).1.scale p =
      get_cursors center s.offset s.scale p := by
  have hs0 : s.scale ≠ 0 := by rw [hscale]; exact (Real.exp_pos _).ne'
  have hs1 : Real.exp (s.scale_level + d) ≠ 0 := (Real.exp_pos _).ne'
  ext <;>
    simp only [get_cursors, InfiniteState.add_level, hm, Option.getD_some,
      Vec2.scaleBy, Bool.false_eq_true, if_false, Vec2.sub_x, Vec2.sub_y,
      Vec2.add_x, Vec2.add_y, Vec2.mk_x, Vec2.mk_y, Vec2.neg_x, Vec2.neg_y] <;>
    field_simp <;> ring

/-- Witness for C1: pointer stored as the projection of screen point
`(5, 7)` from center `(0, 0)`, one zoom step. -/
theorem zoom_focal_point_invariant_witness :
    get_cursors ⟨0, 0⟩ (focalState.add_level 1 false).1.offset
        (focalState.add_level 1 false).1.scale ⟨5, 7⟩ =
      get_cursors ⟨0, 0⟩ focalState.offset focalState.scale ⟨5, 7⟩ :=
  zoom_focal_point_invariant focalState ⟨0, 0⟩ ⟨5, 7⟩ 1 rfl rfl

/-- C2 counterexample: from offset `(1, 1)`, `scale_level = 0`, a
focal-origin zoom by `1` followed by `-1` does not restore the offset
(its y component becomes `exp(1)^2`). -/
theorem zoom_roundtrip_counterexample :
    ((roundtripState.add_level 1 true).1.add_level (-1) true).1.offset ≠
      roundtripState.offset := by
  intro hEq
  have hy := congrArg Vec2.y hEq
  norm_num [roundtripState, InfiniteState.add_level, Real.exp_zero] at hy
  have h1 : (1 : ℝ) < Real.exp 1 := Real.one_lt_exp_iff.mpr one_pos
  nlinarith [hy, h1]

/-- C2 (amended): a focal-origin zoom by `level_diff` followed by
`-level_diff` always restores `scale_level`, for every starting state;
it does not in general restore the offset, though it does when the
starting offset is zero. -/
theorem zoom_roundtrip_amended (s : InfiniteState) (d : ℝ) :
    ((s.add_level d true).1.add_level (-d) true).1.scale_level =
      s.scale_level ∧
    (s.offset = ⟨0, 0⟩ →
      ((s.add_level d true).1.add_level (-d) true).1.offset = s.offset) := by
  constructor
  · show s.scale_level + d + -d = s.scale_level
    ring
  · intro h
    ext <;> simp [InfiniteState.add_level, h]

/-- Witness for C2's amended claim at the fresh state and `d = 1`. -/
theorem zoom_roundtrip_amended_witness :
    ((InfiniteState.new.add_level 1 true).1.add_level (-1) true).1.scale_level =
      InfiniteState.new.scale_level ∧
    ((InfiniteState.new.add_level 1 true).1.add_level (-1) true).1.offset =
      InfiniteState.new.offset :=
  ⟨(zoom_roundtrip_amended InfiniteState.new 1).1,
    (zoom_roundtrip_amended InfiniteState.new 1).2 rfl⟩

end Infinite
